import Mathlib

/-!
# Verification of the InboxDetox rule/pattern engine (`background.js`)

Shallow embedding of the email-classification core of the repository:
string primitives mirroring the JavaScript string operations used by the
source, the rule matcher, the spam classifier, the message classifier,
the pattern learner, the suggestion store operations, and the processing
cycle driver.  External effects (Gmail API calls, `chrome.storage`,
notifications, clock) are modelled as explicit oracle parameters; all
state mutation is explicit state passing.
-/

namespace InboxDetox

/-! ## String primitives (JavaScript semantics on lists of characters) -/

/-- JavaScript `s.toLowerCase()` restricted to the per-character mapping
(ASCII letters; identical to `Char.toLower` on the data). -/
def lowerStr (s : String) : String := ⟨s.data.map Char.toLower⟩

/-- `needle.isPrefixOf hay || contains later` — JavaScript
`hay.includes(needle)` over character lists. -/
def listContains (hay needle : List Char) : Bool :=
  needle.isPrefixOf hay ||
    match hay with
    | [] => false
    | _ :: t => listContains t needle

/-- JavaScript `hay.includes(needle)`. -/
def strContains (hay needle : String) : Bool := listContains hay.data needle.data

/-- JavaScript `hay.endsWith(suffix)`. -/
def strEndsWith (hay suffix : String) : Bool := suffix.data.isSuffixOf hay.data

/-- `substring(lastIndexOf('@') + 1)`: the suffix after the last `'@'`,
or the whole list when no `'@'` occurs (`lastIndexOf` returns `-1`). -/
def afterLastAt : List Char → List Char
  | [] => []
  | c :: t =>
    if t.contains '@' then afterLastAt t
    else if c = '@' then t
    else c :: afterLastAt t

/-- JavaScript `s.replace('>', '')`: removes the first `'>'` only. -/
def removeFirstGt : List Char → List Char
  | [] => []
  | c :: t => if c = '>' then t else c :: removeFirstGt t

/-- Two or more consecutive occurrences of `c` (JS `/[c]{2,}/` test). -/
def hasDouble (c : Char) : List Char → Bool
  | [] => false
  | [_] => false
  | a :: b :: t => (a = c && b = c) || hasDouble c (b :: t)

/-! ## Data model -/

/-- A fetched Gmail message, as consumed by the classifier: the header
list of the `payload`, the `snippet`, and the base64-decoded `text/plain`
part when present (`none` models a missing part or a decode failure). -/
structure FullMsg where
  id : String
  headers : List (String × String)
  snippet : String
  bodyText : Option String
deriving DecidableEq, Repr

/-- A user rule from `userSettings.rules`:
`{ type, value, labelId, labelName }`.  `type` is kept as a raw string
because the source `switch` has a `default` branch for unknown types. -/
structure Rule where
  ctype : String
  value : String
  labelId : Option String
  labelName : String
deriving DecidableEq, Repr

/-- The spam-related part of `userSettings`. -/
structure SpamConfig where
  enabled : Bool
  keywords : List String
  domains : List String
deriving DecidableEq, Repr

/-- Suggestion lifecycle status, `status` field of a stored suggestion. -/
inductive SStatus where
  | pending
  | approved
  | rejected
  | failed_creation
deriving DecidableEq, Repr

/-- A stored label suggestion (`suggestedLabels` entry in
`chrome.storage.local`). -/
structure Suggestion where
  id : String
  name : String
  basedOnDomain : String
  basedOnLabel : Option String
  basedOnLabelId : String
  status : SStatus
  createdLabelId : Option String
deriving DecidableEq, Repr

/-- `const SPAM_LABEL_NAME = 'ExtensionSpam'`. -/
def SPAM_LABEL_NAME : String := "ExtensionSpam"

/-- `const MIN_EMAILS_FOR_PATTERN = 3`. -/
def MIN_EMAILS_FOR_PATTERN : Nat := 3

/-! ## Header access -/

/-- `message.payload.headers.find(h => h.name.toLowerCase() === name)?.value || ''`. -/
def getHeader (headers : List (String × String)) (name : String) : String :=
  ((headers.find? (fun h => lowerStr h.1 = name)).map Prod.snd).getD ""

/-! ## Spam classifier (`isSpam`, background.js lines 189–227) -/

/-- `senderHeader.substring(senderHeader.lastIndexOf('@') + 1).replace('>', '')`
applied to the already-lowercased sender header. -/
def senderDomainOf (senderHeader : String) : String :=
  ⟨removeFirstGt (afterLastAt (lowerStr senderHeader).data)⟩

/-- `isSpam(message)`: false when detection is disabled; otherwise the
source's sequence of early `return true` checks, i.e. the disjunction of
the keyword, suspicious-domain, punctuation and no-TLD heuristics. -/
def isSpam (cfg : SpamConfig) (m : FullMsg) : Bool :=
  if !cfg.enabled then false
  else
    let subject := lowerStr (getHeader m.headers "subject")
    let senderDomain := senderDomainOf (getHeader m.headers "from")
    cfg.keywords.any (fun k => strContains subject (lowerStr k)) ||
    cfg.domains.any (fun d => strEndsWith senderDomain (lowerStr d)) ||
    (hasDouble '!' subject.data || hasDouble '?' subject.data) ||
    (senderDomain ≠ "" && !senderDomain.data.contains '.' && senderDomain ≠ "localhost")

/-! ## Rule matcher (`messageMatchesRule`, background.js lines 161–187) -/

/-- `message.snippet` plus `' ' + atob(textPart)` when a decodable
`text/plain` part exists. -/
def bodySnippetOf (m : FullMsg) : String :=
  m.snippet ++ (match m.bodyText with | some t => " " ++ t | none => "")

/-- `messageMatchesRule(message, rule)`: case-insensitive substring tests
per condition type, `false` on an unknown type (`default` branch). -/
def messageMatchesRule (m : FullMsg) (r : Rule) : Bool :=
  let subject := getHeader m.headers "subject"
  let sender := getHeader m.headers "from"
  let bodySnippet := bodySnippetOf m
  if r.ctype = "sender" then
    strContains (lowerStr sender) (lowerStr r.value)
  else if r.ctype = "subject" then
    strContains (lowerStr subject) (lowerStr r.value)
  else if r.ctype = "keyword" then
    strContains (lowerStr subject) (lowerStr r.value) ||
    strContains (lowerStr bodySnippet) (lowerStr r.value)
  else false

/-! ## Pattern learner (`analyzeForPatterns`, background.js lines 285–336) -/

/-- `\w` of the JavaScript regex together with `.` and `-`:
the character class `[\w.-]`. -/
def wdChar (c : Char) : Bool := c.isAlphanum || c = '_' || c = '.' || c = '-'

/-- `senderHeader.match(/@([\w.-]+)/)`: scan left to right; at the first
`'@'` followed by at least one `[\w.-]` character, capture the maximal
run of such characters; `none` when no such position exists. -/
def extractDomain : List Char → Option (List Char)
  | [] => none
  | c :: t =>
    if c = '@' then
      let run := t.takeWhile wdChar
      if run.isEmpty then extractDomain t else some run
    else extractDomain t

/-- The `gmailLabels` cache, a list of `(labelId, labelName)` pairs;
`lookupLabel cache id` is the JavaScript property read `gmailLabels[id]`
(`none` for `undefined`). -/
def lookupLabel (cache : List (String × String)) (id : String) : Option String :=
  (cache.find? (fun p => p.1 = id)).map Prod.snd

/-- Template interpolation `${gmailLabels[id]}`: `undefined` prints as
the string `"undefined"`. -/
def labelNameOrUndefined (cache : List (String × String)) (id : String) : String :=
  (lookupLabel cache id).getD "undefined"

/-- The persisted pattern-learning state: `domainLabelCounts` (a total
map from the composite `"<domain>:::<labelId>"` key) and the
`suggestedLabels` list. -/
structure PatternState where
  counters : String → Nat
  suggestions : List Suggestion

/-- `analyzeForPatterns(message, appliedLabelIds)`.  `cache` is the
`gmailLabels` snapshot, `nowId` the `Date.now()` reading used for the
fresh suggestion id. -/
def analyzeForPatterns (cache : List (String × String)) (nowId : String)
    (m : FullMsg) (appliedLabelIds : List String) (ps : PatternState) : PatternState :=
  if appliedLabelIds.isEmpty then ps
  else
    match extractDomain (getHeader m.headers "from").data with
    | none => ps
    | some dom =>
      match appliedLabelIds.find? (fun id => lookupLabel cache id ≠ some SPAM_LABEL_NAME) with
      | none => ps
      | some primaryId =>
        let senderDomain : String := ⟨dom⟩
        let key := senderDomain ++ ":::" ++ primaryId
        let counters' : String → Nat :=
          fun k => if k = key then ps.counters k + 1 else ps.counters k
        if MIN_EMAILS_FOR_PATTERN ≤ counters' key then
          let suggestedName := labelNameOrUndefined cache primaryId ++ " - " ++ senderDomain
          let existingSuggestion :=
            ps.suggestions.any (fun s => lowerStr s.name = lowerStr suggestedName)
          let labelAlreadyExists :=
            cache.any (fun p => lowerStr p.2 = lowerStr suggestedName)
          if !existingSuggestion && !labelAlreadyExists then
            { counters := counters'
              suggestions := ps.suggestions ++
                [{ id := "sugg_" ++ nowId
                   name := suggestedName
                   basedOnDomain := senderDomain
                   basedOnLabel := lookupLabel cache primaryId
                   basedOnLabelId := primaryId
                   status := .pending
                   createdLabelId := none }] }
          else { ps with counters := counters' }
        else { ps with counters := counters' }

/-! ## Message classifier (`processEmail`, background.js lines 229–283) -/

/-- `rule.labelId || await createLabelIfNeeded(rule.labelName)`:
the stored id when truthy, otherwise the label-resolver oracle
(`createLabelIfNeeded` returns `null` on creation failure). -/
def resolveTarget (create : String → Option String) (r : Rule) : Option String :=
  match r.labelId with
  | some l => if l = "" then create r.labelName else some l
  | none => create r.labelName

/-- The rule loop of `processEmail`: first-match evaluation in stored
order; a matching rule whose target label fails to resolve does **not**
break the loop (the `break` is guarded by `if (targetLabelId)`). -/
def applyRules (create : String → Option String) (m : FullMsg) :
    List Rule → Option (Rule × String)
  | [] => none
  | r :: rest =>
    if messageMatchesRule m r then
      match resolveTarget create r with
      | some id => some (r, id)
      | none => applyRules create m rest
    else applyRules create m rest

/-- The classification decision of `processEmail`: the `labelsToAdd`
list and the `appliedRule` flag. -/
def classifyMessage (cfg : SpamConfig) (create : String → Option String)
    (rules : List Rule) (m : FullMsg) : List String × Bool :=
  if isSpam cfg m then
    match create SPAM_LABEL_NAME with
    | some spamId => ([spamId], false)
    | none => ([], false)
  else
    match applyRules create m rules with
    | some (_, id) => ([id], true)
    | none => ([], false)

/-- Read-only environment of one processing cycle: settings snapshot,
label cache snapshot and the label-creation oracle. -/
structure Env where
  cfg : SpamConfig
  rules : List Rule
  patternDetection : Bool
  cache : List (String × String)
  create : String → Option String
  nowId : String

/-- Mutable state threaded through one processing cycle. -/
structure CState where
  pattern : PatternState
  ruleAssignments : List (String × String)
  applied : List (String × List String × List String)
  lastProcessedTimestamp : Option String

/-- `processEmail(message)` for one message; `none` models the message
whose full fetch failed or lacked a payload (early return, state kept). -/
def processEmail (env : Env) (st : CState) (om : Option FullMsg) : CState :=
  match om with
  | none => st
  | some m =>
    let (labelsToAdd, appliedRule) := classifyMessage env.cfg env.create env.rules m
    let st := match appliedRule, labelsToAdd with
      | true, id :: _ => { st with ruleAssignments := st.ruleAssignments ++ [(m.id, id)] }
      | _, _ => st
    let st := if labelsToAdd.isEmpty then st
      else { st with applied := st.applied ++ [(m.id, labelsToAdd, ["UNREAD"])] }
    if appliedRule && env.patternDetection then
      { st with pattern := analyzeForPatterns env.cache env.nowId m labelsToAdd st.pattern }
    else st

/-! ## Processing cycle (`processUnreadEmails`, background.js lines 339–372) -/

/-- Result of `fetchGmailApi('/messages?q=is:unread')`:
`.error` models a thrown error, `.ok none` a `null`/empty listing,
`.ok (some msgs)` a non-empty listing (each entry `none` when that
message later fails to fetch or process). -/
def processUnreadEmails (env : Env) (fetch : Except String (Option (List (Option FullMsg))))
    (now : String) (st : CState) : CState :=
  match fetch with
  | .error _ => st
  | .ok none => { st with lastProcessedTimestamp := some now }
  | .ok (some msgs) =>
    let st' := (msgs.take 10).foldl (processEmail env) st
    { st' with lastProcessedTimestamp := some now }

/-! ## Suggestion store operations (background.js lines 521–556) -/

/-- Settings/storage state touched by the suggestion handlers. -/
structure SuggState where
  suggestions : List Suggestion
  rules : List Rule
  persistedRules : List Rule
deriving DecidableEq, Repr

/-- Replace the first element satisfying `p` (the in-place mutation of
the object returned by `Array.prototype.find`). -/
def updFirstWith (p : Suggestion → Bool) (s' : Suggestion) :
    List Suggestion → List Suggestion
  | [] => []
  | s :: t => if p s then s' :: t else s :: updFirstWith p s' t

/-- The `approveSuggestion` message handler: look the id up, create the
label via the resolver oracle, set `approved`/`failed_creation`, and
when `autoCreateLabels` is set append the synthesized sender rule and
persist the rule list (`saveSettings`).  Returns the `success` flag of
the response together with the new state. -/
def approveSuggestion (create : String → Option String) (autoCreateLabels : Bool)
    (st : SuggState) (sid : String) : Bool × SuggState :=
  match st.suggestions.find? (fun s => s.id = sid) with
  | none => (false, st)
  | some s =>
    match create s.name with
    | some newLabelId =>
      let s' := { s with status := .approved, createdLabelId := some newLabelId }
      let suggestions' := updFirstWith (fun x => x.id = sid) s' st.suggestions
      if autoCreateLabels then
        let rules' := st.rules ++
          [{ ctype := "sender", value := "@" ++ s.basedOnDomain,
             labelId := some newLabelId, labelName := s.name }]
        (true, { suggestions := suggestions', rules := rules', persistedRules := rules' })
      else
        (true, { st with suggestions := suggestions' })
    | none =>
      let suggestions' :=
        updFirstWith (fun x => x.id = sid) { s with status := .failed_creation } st.suggestions
      (true, { st with suggestions := suggestions' })

/-- The `rejectSuggestion` message handler. -/
def rejectSuggestion (st : SuggState) (sid : String) : Bool × SuggState :=
  match st.suggestions.find? (fun s => s.id = sid) with
  | none => (false, st)
  | some s =>
    let suggestions' :=
      updFirstWith (fun x => x.id = sid) { s with status := .rejected } st.suggestions
    (true, { st with suggestions := suggestions' })

/-! ## Spec-side definitions for the spam-classifier claim

The claim describes the sender domain as "substring after the last `@`,
**trailing** `>` stripped"; the code instead removes the **first** `>`
(`.replace('>', '')`).  `isSpamClaimC5` is the classifier with the
claim's wording, for comparison with the source-derived `isSpam`. -/

/-- Remove a trailing `'>'` (and only a trailing one), per the claim's
words. -/
def stripTrailingGt (l : List Char) : List Char :=
  if l.getLast? = some '>' then l.dropLast else l

/-- The claim's sender-domain computation: substring after the last
`'@'` of the lowercased header, trailing `'>'` stripped. -/
def senderDomainSpec (senderHeader : String) : String :=
  ⟨stripTrailingGt (afterLastAt (lowerStr senderHeader).data)⟩

/-- The spam classifier as worded by the claim (identical to `isSpam`
except for the sender-domain computation). -/
def isSpamClaimC5 (cfg : SpamConfig) (m : FullMsg) : Bool :=
  if !cfg.enabled then false
  else
    let subject := lowerStr (getHeader m.headers "subject")
    let senderDomain := senderDomainSpec (getHeader m.headers "from")
    cfg.keywords.any (fun k => strContains subject (lowerStr k)) ||
    cfg.domains.any (fun d => strEndsWith senderDomain (lowerStr d)) ||
    (hasDouble '!' subject.data || hasDouble '?' subject.data) ||
    (senderDomain ≠ "" && !senderDomain.data.contains '.' && senderDomain ≠ "localhost")

/-! ## Suggestion-store reachability and the uniqueness invariant -/

/-- Case-normalized suggestion names, in store order. -/
def namesKey (ss : List Suggestion) : List String :=
  ss.map (fun s => lowerStr s.name)

/-- Statuses counted by the uniqueness invariant. -/
def isPA : SStatus → Bool
  | .pending => true
  | .approved => true
  | .rejected => false
  | .failed_creation => false

/-- Stores reachable from the empty `suggestedLabels` list through the
three operations that mutate it: pattern-learner creation, approve, and
reject (the notification-button path performs the same two
transitions). -/
inductive ReachSugg : List Suggestion → Prop where
  | nil : ReachSugg []
  | learn (cache : List (String × String)) (nid : String) (m : FullMsg)
      (applied : List String) (counters : String → Nat) {ss : List Suggestion} :
      ReachSugg ss →
      ReachSugg (analyzeForPatterns cache nid m applied ⟨counters, ss⟩).suggestions
  | approve (create : String → Option String) (auto : Bool) (rules pr : List Rule)
      (sid : String) {ss : List Suggestion} :
      ReachSugg ss →
      ReachSugg ((approveSuggestion create auto ⟨ss, rules, pr⟩ sid).2).suggestions
  | reject (rules pr : List Rule) (sid : String) {ss : List Suggestion} :
      ReachSugg ss →
      ReachSugg ((rejectSuggestion ⟨ss, rules, pr⟩ sid).2).suggestions

/-! ## Infrastructure lemmas -/

/-- `listContains` is substring (infix) containment. -/
theorem listContains_iff (hay needle : List Char) :
    listContains hay needle = true ↔ needle <:+: hay := by
  induction hay with
  | nil =>
    simp [listContains, List.isPrefixOf_iff_prefix]
  | cons c t ih =>
    rw [listContains]
    simp [List.isPrefixOf_iff_prefix, ih, List.infix_cons_iff]

/-- `strContains` is substring containment on the character data. -/
theorem strContains_iff (hay needle : String) :
    strContains hay needle = true ↔ needle.data <:+: hay.data :=
  listContains_iff hay.data needle.data

/-- Replacing the first `p`-element by a `p`-element is observed by
`find?`. -/
theorem find?_updFirstWith (p : Suggestion → Bool) (s s' : Suggestion)
    (l : List Suggestion) (hf : l.find? p = some s) (hp : p s' = true) :
    (updFirstWith p s' l).find? p = some s' := by
  induction l with
  | nil => simp at hf
  | cons a t ih =>
    by_cases ha : p a
    · rw [updFirstWith, if_pos ha]
      exact List.find?_cons_of_pos t hp
    · rw [updFirstWith, if_neg ha, List.find?_cons_of_neg _ ha]
      rw [List.find?_cons_of_neg t ha] at hf
      exact ih hf

/-- `Char.ofNatAux` packs exactly its argument. -/
theorem toNat_ofNatAux (n : Nat) (h : n.isValidChar) : (Char.ofNatAux n h).toNat = n := rfl

/-- Lowercasing never produces `'@'` from another character. -/
theorem toLower_at (c : Char) (h : c.toLower = '@') : c = '@' := by
  unfold Char.toLower at h
  by_cases hc : c.toNat ≥ 65 ∧ c.toNat ≤ 90
  · rw [if_pos hc] at h
    exfalso
    have hv : (c.toNat + 32).isValidChar := Or.inl (by omega)
    rw [Char.ofNat, dif_pos hv] at h
    have h2 := congrArg Char.toNat h
    rw [toNat_ofNatAux] at h2
    have h64 : ('@' : Char).toNat = 64 := rfl
    omega
  · rwa [if_neg hc] at h

/-- `'@'` occurs in a lowercased character list iff it occurs in the
original. -/
theorem contains_at_lower (l : List Char) :
    (l.map Char.toLower).contains '@' = l.contains '@' := by
  induction l with
  | nil => rfl
  | cons c t ih =>
    simp only [List.map_cons, List.contains_cons, ih]
    congr 1
    cases hb : ('@' == c) with
    | true =>
      have hc : '@' = c := eq_of_beq hb
      rw [← hc]
      rfl
    | false =>
      have hc : '@' ≠ c := ne_of_beq_false hb
      apply beq_eq_false_iff_ne.mpr
      intro hl
      exact hc (toLower_at c hl.symm).symm

/-- With no `'@'` in the list, `substring(lastIndexOf('@') + 1)` is the
whole list. -/
theorem afterLastAt_of_not_contains (l : List Char) (h : l.contains '@' = false) :
    afterLastAt l = l := by
  induction l with
  | nil => rfl
  | cons c t ih =>
    rw [List.contains_cons, Bool.or_eq_false_iff] at h
    obtain ⟨h1, h2⟩ := h
    rw [afterLastAt,
      if_neg (fun hx : t.contains '@' = true => Bool.false_ne_true (h2 ▸ hx)),
      if_neg (fun hc => by simp [hc] at h1)]
    rw [ih h2]

/-! ## Claim theorems -/

/-- C6: for every message and rule, `messageMatchesRule` returns true
exactly under case-insensitive substring containment: for `sender` iff
the sender header contains the condition value, for `subject` iff the
subject header contains it, for `keyword` iff the subject header or the
text snippet contains it; any unknown condition type never matches.
The function is pure (a Lean `def` with no state), so it has no side
effects. -/
theorem rule_matcher_spec (m : FullMsg) (r : Rule) :
    messageMatchesRule m r = true ↔
      ((r.ctype = "sender" ∧
          (lowerStr r.value).data <:+: (lowerStr (getHeader m.headers "from")).data) ∨
       (r.ctype = "subject" ∧
          (lowerStr r.value).data <:+: (lowerStr (getHeader m.headers "subject")).data) ∨
       (r.ctype = "keyword" ∧
          ((lowerStr r.value).data <:+: (lowerStr (getHeader m.headers "subject")).data ∨
           (lowerStr r.value).data <:+: (lowerStr (bodySnippetOf m)).data))) := by
  by_cases h1 : r.ctype = "sender"
  · simp [messageMatchesRule, h1, strContains_iff]
  · by_cases h2 : r.ctype = "subject"
    · simp [messageMatchesRule, h1, h2, strContains_iff]
    · by_cases h3 : r.ctype = "keyword"
      · simp [messageMatchesRule, h1, h2, h3, strContains_iff]
      · simp [messageMatchesRule, h1, h2, h3]

/-- C3: for every message flagged by the spam classifier, only the fixed
spam label is resolved and applied (`labelsToAdd` is exactly the resolved
spam label, empty when it fails to resolve), the `appliedRule` flag stays
false, and no user rule is evaluated — the classification result is
independent of the rule list, so spam and rule labeling are mutually
exclusive per message. -/
theorem spam_rule_exclusion (cfg : SpamConfig) (create : String → Option String)
    (rules : List Rule) (m : FullMsg) (h : isSpam cfg m = true) :
    classifyMessage cfg create rules m = ((create SPAM_LABEL_NAME).toList, false) ∧
    ∀ rules', classifyMessage cfg create rules' m = classifyMessage cfg create rules m := by
  have hc : ∀ rs, classifyMessage cfg create rs m = ((create SPAM_LABEL_NAME).toList, false) := by
    intro rs
    unfold classifyMessage
    rw [if_pos h]
    cases create SPAM_LABEL_NAME <;> rfl
  exact ⟨hc rules, fun rules' => (hc rules').trans (hc rules).symm⟩

/-- Witness for C3: a message whose subject `"You Won!!! Claim Now"`
matches the punctuation heuristic, together with a rule that also
matches it, still gets only the spam label. -/
theorem spam_rule_exclusion_witness :
    classifyMessage
        { enabled := true, keywords := [], domains := [] }
        (fun n => some ("id_" ++ n))
        [{ ctype := "subject", value := "won", labelId := some "L9", labelName := "Wins" }]
        { id := "m1", headers := [("From", "a@b.com"), ("Subject", "You Won!!! Claim Now")],
          snippet := "", bodyText := none }
      = (["id_ExtensionSpam"], false) :=
  (spam_rule_exclusion _ _ _ _ (by decide)).1

/-- C8: a processing cycle records the completion timestamp at the end
regardless of how many individual messages failed to process (failed
messages are the `none` entries, skipped by `processEmail`), but when
the fetch of the unread listing itself fails the cycle aborts with the
whole state — in particular the timestamp — left unchanged. -/
theorem cycle_timestamp (env : Env) (fetch : Except String (Option (List (Option FullMsg))))
    (now : String) (st : CState) :
    (∀ e, fetch = .error e → processUnreadEmails env fetch now st = st) ∧
    (∀ x, fetch = .ok x →
      (processUnreadEmails env fetch now st).lastProcessedTimestamp = some now) := by
  constructor
  · intro e he
    subst he
    rfl
  · intro x hx
    subst hx
    cases x with
    | none => rfl
    | some msgs => rfl

/-- Witness for C8: a fetch failure leaves a concrete state unchanged,
and a successful fetch whose two messages both fail to process still
records the timestamp. -/
theorem cycle_timestamp_witness :
    (processUnreadEmails
        { cfg := { enabled := true, keywords := [], domains := [] }, rules := [],
          patternDetection := true, cache := [], create := fun _ => none, nowId := "0" }
        (.error "API Error")
        "2026-10-11T00:00:00Z"
        { pattern := { counters := fun _ => 0, suggestions := [] },
          ruleAssignments := [], applied := [], lastProcessedTimestamp := none }
      = { pattern := { counters := fun _ => 0, suggestions := [] },
          ruleAssignments := [], applied := [], lastProcessedTimestamp := none }) ∧
    ((processUnreadEmails
        { cfg := { enabled := true, keywords := [], domains := [] }, rules := [],
          patternDetection := true, cache := [], create := fun _ => none, nowId := "0" }
        (.ok (some [none, none]))
        "2026-10-11T00:00:00Z"
        { pattern := { counters := fun _ => 0, suggestions := [] },
          ruleAssignments := [], applied := [], lastProcessedTimestamp := none
        }).lastProcessedTimestamp = some "2026-10-11T00:00:00Z") :=
  ⟨(cycle_timestamp _ _ _ _).1 "API Error" rfl, (cycle_timestamp _ _ _ _).2 _ rfl⟩

/-- C2 counterexample: a non-spam message matching both rules, where the
first matching rule's label fails to resolve.  The claim says iteration
stops at the first rule for which the matcher returns true and at most
that rule's label is applied; the code instead continues past it (the
`break` is guarded by `if (targetLabelId)`) and applies the second
matching rule's label. -/
theorem rule_first_match_cex :
    messageMatchesRule
        { id := "m1", headers := [("From", "news@shop.com"), ("Subject", "hello")],
          snippet := "", bodyText := none }
        { ctype := "sender", value := "shop", labelId := none, labelName := "A" } = true ∧
    classifyMessage
        { enabled := false, keywords := [], domains := [] }
        (fun _ => none)
        [{ ctype := "sender", value := "shop", labelId := none, labelName := "A" },
         { ctype := "sender", value := "shop", labelId := some "L2", labelName := "B" }]
        { id := "m1", headers := [("From", "news@shop.com"), ("Subject", "hello")],
          snippet := "", bodyText := none }
      = (["L2"], true) := by
  decide

/-- C2 (amended): classification iterates the rules in stored order and
stops at the first rule that both matches and whose target label
resolves; a matching rule whose label fails to resolve is passed over
(iteration continues), every rule before the returned one either does
not match or does not resolve, and at most one label is ever applied. -/
theorem rule_first_resolvable_match (create : String → Option String) (m : FullMsg) :
    ∀ rules : List Rule,
    (∀ r id, applyRules create m rules = some (r, id) →
        messageMatchesRule m r = true ∧ resolveTarget create r = some id ∧
        ∃ pre post, rules = pre ++ r :: post ∧
          ∀ r' ∈ pre, messageMatchesRule m r' = false ∨ resolveTarget create r' = none) ∧
    (applyRules create m rules = none →
        ∀ r ∈ rules, messageMatchesRule m r = false ∨ resolveTarget create r = none) ∧
    (∀ cfg, (classifyMessage cfg create rules m).1.length ≤ 1) := by
  intro rules
  induction rules with
  | nil =>
    refine ⟨?_, ?_, ?_⟩
    · intro r id h
      simp [applyRules] at h
    · intro _ r hr
      simp at hr
    · intro cfg
      unfold classifyMessage
      split
      · cases create SPAM_LABEL_NAME <;> simp
      · simp [applyRules]
  | cons r0 rest ih =>
    have hlen : ∀ cfg rs, (classifyMessage cfg create rs m).1.length ≤ 1 := by
      intro cfg rs
      unfold classifyMessage
      split
      · cases create SPAM_LABEL_NAME <;> simp
      · cases applyRules create m rs with
        | none => simp
        | some p => simp
    refine ⟨?_, ?_, fun cfg => hlen cfg _⟩
    · intro r id h
      rw [applyRules] at h
      by_cases hm : messageMatchesRule m r0
      · rw [if_pos hm] at h
        cases hres : resolveTarget create r0 with
        | some id0 =>
          rw [hres] at h
          simp only [Option.some.injEq, Prod.mk.injEq] at h
          obtain ⟨hr, hid⟩ := h
          subst hr; subst hid
          exact ⟨hm, hres, [], rest, rfl, by simp⟩
        | none =>
          rw [hres] at h
          obtain ⟨h1, h2, pre, post, heq, hpre⟩ := ih.1 r id h
          refine ⟨h1, h2, r0 :: pre, post, by rw [heq]; rfl, ?_⟩
          intro r' hr'
          rcases List.mem_cons.mp hr' with h' | h'
          · subst h'; exact Or.inr hres
          · exact hpre r' h'
      · rw [if_neg hm] at h
        obtain ⟨h1, h2, pre, post, heq, hpre⟩ := ih.1 r id h
        refine ⟨h1, h2, r0 :: pre, post, by rw [heq]; rfl, ?_⟩
        intro r' hr'
        rcases List.mem_cons.mp hr' with h' | h'
        · subst h'; exact Or.inl (Bool.eq_false_iff.mpr hm)
        · exact hpre r' h'
    · intro h r hr
      rw [applyRules] at h
      by_cases hm : messageMatchesRule m r0
      · rw [if_pos hm] at h
        cases hres : resolveTarget create r0 with
        | some id0 => rw [hres] at h; exact absurd h (by simp)
        | none =>
          rw [hres] at h
          rcases List.mem_cons.mp hr with h' | h'
          · subst h'; exact Or.inr hres
          · exact ih.2.1 h r h'
      · rw [if_neg hm] at h
        rcases List.mem_cons.mp hr with h' | h'
        · subst h'; exact Or.inl (Bool.eq_false_iff.mpr hm)
        · exact ih.2.1 h r h'

/-- Witness for C2 (amended): on the counterexample instance the loop
returns the second rule, the first rule is recorded as matching but
unresolvable, and at most one label is applied. -/
theorem rule_first_resolvable_match_witness :
    (messageMatchesRule
        { id := "m1", headers := [("From", "news@shop.com"), ("Subject", "hello")],
          snippet := "", bodyText := none }
        { ctype := "sender", value := "shop", labelId := some "L2", labelName := "B" } = true ∧
     resolveTarget (fun _ => none)
        { ctype := "sender", value := "shop", labelId := some "L2", labelName := "B" }
       = some "L2" ∧
     ∃ pre post,
       [{ ctype := "sender", value := "shop", labelId := none, labelName := "A" },
        { ctype := "sender", value := "shop", labelId := some "L2", labelName := "B" }]
         = pre ++ { ctype := "sender", value := "shop", labelId := some "L2", labelName := "B" } :: post ∧
       ∀ r' ∈ pre,
         messageMatchesRule
             { id := "m1", headers := [("From", "news@shop.com"), ("Subject", "hello")],
               snippet := "", bodyText := none } r' = false ∨
         resolveTarget (fun _ => none) r' = none) :=
  (rule_first_resolvable_match (fun _ => none)
      { id := "m1", headers := [("From", "news@shop.com"), ("Subject", "hello")],
        snippet := "", bodyText := none }
      [{ ctype := "sender", value := "shop", labelId := none, labelName := "A" },
       { ctype := "sender", value := "shop", labelId := some "L2", labelName := "B" }]).1
    _ _ (by decide)

/-- C1 counterexample: `approveSuggestion` invoked on a suggestion whose
status is `rejected` does not fail — it reports success and mutates the
suggestion to `approved`, contradicting the claimed NotFound/InvalidState
behaviour (the handler checks only that the id exists, never the
status). -/
theorem suggestion_ops_status_cex :
    approveSuggestion (fun _ => some "NEW") true
        { suggestions := [{ id := "s1", name := "Finance - billing.example.com",
                            basedOnDomain := "billing.example.com",
                            basedOnLabel := some "Finance", basedOnLabelId := "L1",
                            status := .rejected, createdLabelId := none }],
          rules := [], persistedRules := [] }
        "s1"
      = (true,
         { suggestions := [{ id := "s1", name := "Finance - billing.example.com",
                             basedOnDomain := "billing.example.com",
                             basedOnLabel := some "Finance", basedOnLabelId := "L1",
                             status := .approved, createdLabelId := some "NEW" }],
           rules := [{ ctype := "sender", value := "@billing.example.com",
                       labelId := some "NEW",
                       labelName := "Finance - billing.example.com" }],
           persistedRules := [{ ctype := "sender", value := "@billing.example.com",
                                labelId := some "NEW",
                                labelName := "Finance - billing.example.com" }] }) := by
  decide

/-- C1 (amended): `approveSuggestion` and `rejectSuggestion` fail (with
a NotFound response and no mutation) exactly when the id is unknown; on
a found suggestion of **any** status — pending or not — both operations
succeed: approve sets `approved` (recording the created label id) or
`failed_creation` according to the label-creation outcome, and reject
sets `rejected`. -/
theorem suggestion_ops_amended (create : String → Option String) (auto : Bool)
    (st : SuggState) (sid : String) :
    (st.suggestions.find? (fun s => s.id = sid) = none →
        approveSuggestion create auto st sid = (false, st) ∧
        rejectSuggestion st sid = (false, st)) ∧
    (∀ s, st.suggestions.find? (fun s => s.id = sid) = some s →
        (approveSuggestion create auto st sid).1 = true ∧
        (approveSuggestion create auto st sid).2.suggestions.find? (fun x => x.id = sid)
          = some (match create s.name with
                  | some L => { s with status := .approved, createdLabelId := some L }
                  | none => { s with status := .failed_creation }) ∧
        (rejectSuggestion st sid).1 = true ∧
        (rejectSuggestion st sid).2.suggestions.find? (fun x => x.id = sid)
          = some { s with status := .rejected }) := by
  constructor
  · intro h
    constructor
    · unfold approveSuggestion
      rw [h]
    · unfold rejectSuggestion
      rw [h]
  · intro s h
    have hid := List.find?_some h
    refine ⟨?_, ?_, ?_, ?_⟩
    · cases hres : create s.name with
      | some L =>
        by_cases hA : auto <;> simp [approveSuggestion, h, hres, hA]
      | none => simp [approveSuggestion, h, hres]
    · cases hres : create s.name with
      | some L =>
        by_cases hA : auto <;>
        · simp only [approveSuggestion, h, hres, hA, if_true, if_false, Bool.false_eq_true]
          exact find?_updFirstWith _ s _ _ h hid
      | none =>
        simp only [approveSuggestion, h, hres]
        exact find?_updFirstWith _ s _ _ h hid
    · simp [rejectSuggestion, h]
    · simp only [rejectSuggestion, h]
      exact find?_updFirstWith _ s _ _ h hid

/-- Witness for C1 (amended): on a one-element store, an unknown id
fails with no mutation, and approve/reject on the (rejected) suggestion
report success with the status transitions of the code. -/
theorem suggestion_ops_amended_witness :
    (approveSuggestion (fun _ => some "NEW") true
        { suggestions := [{ id := "s1", name := "N", basedOnDomain := "d.com",
                            basedOnLabel := some "Lbl", basedOnLabelId := "L1",
                            status := .rejected, createdLabelId := none }],
          rules := [], persistedRules := [] } "zzz"
      = (false,
         { suggestions := [{ id := "s1", name := "N", basedOnDomain := "d.com",
                             basedOnLabel := some "Lbl", basedOnLabelId := "L1",
                             status := .rejected, createdLabelId := none }],
           rules := [], persistedRules := [] })) ∧
    ((approveSuggestion (fun _ => some "NEW") true
        { suggestions := [{ id := "s1", name := "N", basedOnDomain := "d.com",
                            basedOnLabel := some "Lbl", basedOnLabelId := "L1",
                            status := .rejected, createdLabelId := none }],
          rules := [], persistedRules := [] } "s1").1 = true) ∧
    ((rejectSuggestion
        { suggestions := [{ id := "s1", name := "N", basedOnDomain := "d.com",
                            basedOnLabel := some "Lbl", basedOnLabelId := "L1",
                            status := .rejected, createdLabelId := none }],
          rules := [], persistedRules := [] } "s1").2.suggestions.find?
        (fun x => x.id = "s1")
      = some { id := "s1", name := "N", basedOnDomain := "d.com",
               basedOnLabel := some "Lbl", basedOnLabelId := "L1",
               status := .rejected, createdLabelId := none }) :=
  ⟨((suggestion_ops_amended (fun _ => some "NEW") true _ "zzz").1 (by decide)).1,
   ((suggestion_ops_amended (fun _ => some "NEW") true _ "s1").2
      { id := "s1", name := "N", basedOnDomain := "d.com", basedOnLabel := some "Lbl",
        basedOnLabelId := "L1", status := .rejected, createdLabelId := none }
      (by decide)).1,
   ((suggestion_ops_amended (fun _ => some "NEW") true _ "s1").2
      { id := "s1", name := "N", basedOnDomain := "d.com", basedOnLabel := some "Lbl",
        basedOnLabelId := "L1", status := .rejected, createdLabelId := none }
      (by decide)).2.2.2⟩

/-- C7: a successful approve of a pending suggestion with
rule-auto-creation enabled reports success, sets the suggestion to
`approved` with the created label id recorded, appends exactly one new
rule — type `sender`, condition value `"@<basedOnDomain>"`, bound to the
created label — to the rule list, and persists that rule list. -/
theorem approve_appends_rule (create : String → Option String) (st : SuggState)
    (sid : String) (s : Suggestion) (L : String)
    (hfind : st.suggestions.find? (fun x => x.id = sid) = some s)
    (_hpending : s.status = .pending)
    (hcreate : create s.name = some L) :
    (approveSuggestion create true st sid).1 = true ∧
    (approveSuggestion create true st sid).2.suggestions.find? (fun x => x.id = sid)
      = some { s with status := .approved, createdLabelId := some L } ∧
    (approveSuggestion create true st sid).2.rules
      = st.rules ++ [{ ctype := "sender", value := "@" ++ s.basedOnDomain,
                       labelId := some L, labelName := s.name }] ∧
    (approveSuggestion create true st sid).2.persistedRules
      = (approveSuggestion create true st sid).2.rules := by
  have hid := List.find?_some hfind
  refine ⟨?_, ?_, ?_, ?_⟩
  · simp [approveSuggestion, hfind, hcreate]
  · simp only [approveSuggestion, hfind, hcreate, if_true]
    exact find?_updFirstWith _ s _ _ hfind hid
  · simp [approveSuggestion, hfind, hcreate]
  · simp [approveSuggestion, hfind, hcreate]

/-- Witness for C7: approving a concrete pending suggestion for domain
`billing.example.com` appends exactly the rule
`{sender, "@billing.example.com"}` bound to the created label. -/
theorem approve_appends_rule_witness :
    ((approveSuggestion (fun _ => some "NEW") true
        { suggestions := [{ id := "s1", name := "Finance - billing.example.com",
                            basedOnDomain := "billing.example.com",
                            basedOnLabel := some "Finance", basedOnLabelId := "L1",
                            status := .pending, createdLabelId := none }],
          rules := [{ ctype := "subject", value := "inv", labelId := some "L1",
                      labelName := "Finance" }],
          persistedRules := [{ ctype := "subject", value := "inv", labelId := some "L1",
                               labelName := "Finance" }] } "s1").2.rules
      = [{ ctype := "subject", value := "inv", labelId := some "L1", labelName := "Finance" },
         { ctype := "sender", value := "@billing.example.com", labelId := some "NEW",
           labelName := "Finance - billing.example.com" }]) :=
  (approve_appends_rule (fun _ => some "NEW") _ "s1"
      { id := "s1", name := "Finance - billing.example.com",
        basedOnDomain := "billing.example.com", basedOnLabel := some "Finance",
        basedOnLabelId := "L1", status := .pending, createdLabelId := none }
      "NEW" (by decide) rfl rfl).2.2.1

/-- C4: when the pattern learner runs on a message with an extractable
sender domain and a non-spam applied label, it increments exactly the
`(senderDomain, labelId)` counter, and creates one new `pending`
suggestion named `"<labelName> - <domain>"` exactly when the updated
count reaches the threshold `MIN_EMAILS_FOR_PATTERN = 3` **and** no
stored suggestion of any status already carries that name
(case-insensitively) **and** no cached real label carries it; in
particular once such a suggestion exists every further increment for
the pair creates no suggestion. -/
theorem pattern_learner_spec (cache : List (String × String)) (nid : String)
    (m : FullMsg) (applied : List String) (ps : PatternState)
    (dom : List Char) (primaryId : String)
    (hdom : extractDomain (getHeader m.headers "from").data = some dom)
    (hfind : applied.find? (fun id => lookupLabel cache id ≠ some SPAM_LABEL_NAME)
      = some primaryId) :
    (analyzeForPatterns cache nid m applied ps).counters
      = (fun k => if k = String.mk dom ++ ":::" ++ primaryId
          then ps.counters k + 1 else ps.counters k) ∧
    (analyzeForPatterns cache nid m applied ps).suggestions
      = (if MIN_EMAILS_FOR_PATTERN ≤ ps.counters (String.mk dom ++ ":::" ++ primaryId) + 1
            ∧ (∀ s ∈ ps.suggestions, lowerStr s.name
                ≠ lowerStr (labelNameOrUndefined cache primaryId ++ " - " ++ String.mk dom))
            ∧ (∀ p ∈ cache, lowerStr p.2
                ≠ lowerStr (labelNameOrUndefined cache primaryId ++ " - " ++ String.mk dom))
         then ps.suggestions ++
            [{ id := "sugg_" ++ nid
               name := labelNameOrUndefined cache primaryId ++ " - " ++ String.mk dom
               basedOnDomain := String.mk dom
               basedOnLabel := lookupLabel cache primaryId
               basedOnLabelId := primaryId
               status := .pending
               createdLabelId := none }]
         else ps.suggestions) ∧
    ((∃ s ∈ ps.suggestions, lowerStr s.name
        = lowerStr (labelNameOrUndefined cache primaryId ++ " - " ++ String.mk dom)) →
      (analyzeForPatterns cache nid m applied ps).suggestions = ps.suggestions) := by
  have hne : applied.isEmpty = false := by
    cases applied with
    | nil => simp at hfind
    | cons a t => rfl
  unfold analyzeForPatterns
  simp only [hne, Bool.false_eq_true, if_false, hdom, hfind, if_true]
  by_cases h1 : MIN_EMAILS_FOR_PATTERN
      ≤ ps.counters (String.mk dom ++ ":::" ++ primaryId) + 1
  · rw [if_pos h1]
    cases hA : ps.suggestions.any (fun s => lowerStr s.name
        = lowerStr (labelNameOrUndefined cache primaryId ++ " - " ++ String.mk dom)) with
    | true =>
      rw [if_neg (by simp [hA])]
      refine ⟨rfl, ?_, fun _ => rfl⟩
      rw [if_neg]
      rintro ⟨-, hall, -⟩
      rcases List.any_eq_true.mp hA with ⟨s, hs, hname⟩
      exact hall s hs (by simpa using hname)
    | false =>
      cases hB : cache.any (fun p => lowerStr p.2
          = lowerStr (labelNameOrUndefined cache primaryId ++ " - " ++ String.mk dom)) with
      | true =>
        rw [if_neg (by simp [hA, hB])]
        refine ⟨rfl, ?_, fun _ => rfl⟩
        rw [if_neg]
        rintro ⟨-, -, hall⟩
        rcases List.any_eq_true.mp hB with ⟨p, hp, hname⟩
        exact hall p hp (by simpa using hname)
      | false =>
        rw [if_pos (by simp [hA, hB])]
        refine ⟨rfl, ?_, ?_⟩
        · rw [if_pos]
          refine ⟨h1, ?_, ?_⟩
          · intro s hs hname
            have := List.any_eq_false.mp hA s hs
            simp at this
            exact this (by simpa using hname)
          · intro p hp hname
            have := List.any_eq_false.mp hB p hp
            simp at this
            exact this (by simpa using hname)
        · rintro ⟨s, hs, hname⟩
          have := List.any_eq_false.mp hA s hs
          simp at this
          exact absurd (by simpa using hname) this
  · rw [if_neg h1]
    refine ⟨rfl, ?_, fun _ => rfl⟩
    rw [if_neg (by rintro ⟨h, -, -⟩; exact h1 h)]

/-- Witness for C4: a third message from `billing.example.com` with the
"Finance" label (counter previously at 2) bumps the counter to 3 and
creates exactly the pending suggestion `"Finance - billing.example.com"`. -/
theorem pattern_learner_spec_witness :
    ((analyzeForPatterns [("L1", "Finance")] "77"
        { id := "m3", headers := [("From", "alerts@billing.example.com"), ("Subject", "inv")],
          snippet := "", bodyText := none }
        ["L1"]
        { counters := fun k => if k = "billing.example.com:::L1" then 2 else 0,
          suggestions := [] }).counters "billing.example.com:::L1" = 3) ∧
    ((analyzeForPatterns [("L1", "Finance")] "77"
        { id := "m3", headers := [("From", "alerts@billing.example.com"), ("Subject", "inv")],
          snippet := "", bodyText := none }
        ["L1"]
        { counters := fun k => if k = "billing.example.com:::L1" then 2 else 0,
          suggestions := [] }).suggestions
      = [{ id := "sugg_77", name := "Finance - billing.example.com",
           basedOnDomain := "billing.example.com", basedOnLabel := some "Finance",
           basedOnLabelId := "L1", status := .pending, createdLabelId := none }]) := by
  have h := pattern_learner_spec [("L1", "Finance")] "77"
      { id := "m3", headers := [("From", "alerts@billing.example.com"), ("Subject", "inv")],
        snippet := "", bodyText := none }
      ["L1"]
      { counters := fun k => if k = "billing.example.com:::L1" then 2 else 0,
        suggestions := [] }
      "billing.example.com".data "L1" (by decide) (by decide)
  exact ⟨(congrFun h.1 "billing.example.com:::L1").trans (by decide),
         h.2.1.trans (by decide)⟩

/-- C5 counterexample: for the sender header `"a@b>x.com"` (a `'>'`
that is not trailing) the code's domain is `"bx.com"` (first `'>'`
removed) while the claim's domain is `"b>x.com"` (no trailing `'>'` to
strip); with suspicious domain `">x.com"` configured, the claim's
heuristics say spam but `isSpam` returns false. -/
theorem spam_domain_cex :
    isSpam
        { enabled := true, keywords := [], domains := [">x.com"] }
        { id := "m1", headers := [("From", "a@b>x.com"), ("Subject", "")],
          snippet := "", bodyText := none } = false ∧
    isSpamClaimC5
        { enabled := true, keywords := [], domains := [">x.com"] }
        { id := "m1", headers := [("From", "a@b>x.com"), ("Subject", "")],
          snippet := "", bodyText := none } = true ∧
    senderDomainOf "a@b>x.com" = "bx.com" ∧
    senderDomainSpec "a@b>x.com" = "b>x.com" := by
  decide

/-- C5 (amended): with the domain computation corrected to "substring
after the last `@`, first `>` removed", the characterization holds:
`isSpam` is false whenever detection is disabled, and when enabled it
returns true iff at least one of the four heuristics holds — a
configured keyword occurs in the (lowercased) subject, the sender
domain ends with a configured suspicious domain, the subject has two or
more consecutive `!` or `?`, or the sender domain is non-empty, has no
`.` and is not `localhost`. -/
theorem spam_classifier_amended (cfg : SpamConfig) (m : FullMsg) :
    (cfg.enabled = false → isSpam cfg m = false) ∧
    (cfg.enabled = true → (isSpam cfg m = true ↔
      ((∃ k ∈ cfg.keywords,
          strContains (lowerStr (getHeader m.headers "subject")) (lowerStr k) = true) ∨
       (∃ d ∈ cfg.domains,
          strEndsWith (senderDomainOf (getHeader m.headers "from")) (lowerStr d) = true) ∨
       (hasDouble '!' (lowerStr (getHeader m.headers "subject")).data = true ∨
        hasDouble '?' (lowerStr (getHeader m.headers "subject")).data = true) ∨
       (senderDomainOf (getHeader m.headers "from") ≠ "" ∧
        (senderDomainOf (getHeader m.headers "from")).data.contains '.' = false ∧
        senderDomainOf (getHeader m.headers "from") ≠ "localhost")))) := by
  constructor
  · intro h
    simp [isSpam, h]
  · intro h
    simp [isSpam, h, List.any_eq_true, Bool.and_eq_true, Bool.not_eq_true',
      and_assoc, or_assoc]

/-- Witness for C5 (amended): a disabled config is never spam even on a
spammy message, and with detection enabled the bare-domain heuristic
instance is reflected by the iff. -/
theorem spam_classifier_amended_witness :
    isSpam
        { enabled := false, keywords := ["win a prize"], domains := [] }
        { id := "m1", headers := [("From", "u@localhost2"), ("Subject", "win a prize!!!")],
          snippet := "", bodyText := none } = false ∧
    (isSpam
        { enabled := true, keywords := [], domains := [] }
        { id := "m1", headers := [("From", "u@localhost2"), ("Subject", "hello")],
          snippet := "", bodyText := none } = true ↔
      ((∃ k ∈ ([] : List String),
          strContains (lowerStr (getHeader [("From", "u@localhost2"), ("Subject", "hello")] "subject")) (lowerStr k) = true) ∨
       (∃ d ∈ ([] : List String),
          strEndsWith (senderDomainOf (getHeader [("From", "u@localhost2"), ("Subject", "hello")] "from")) (lowerStr d) = true) ∨
       (hasDouble '!' (lowerStr (getHeader [("From", "u@localhost2"), ("Subject", "hello")] "subject")).data = true ∨
        hasDouble '?' (lowerStr (getHeader [("From", "u@localhost2"), ("Subject", "hello")] "subject")).data = true) ∨
       (senderDomainOf (getHeader [("From", "u@localhost2"), ("Subject", "hello")] "from") ≠ "" ∧
        (senderDomainOf (getHeader [("From", "u@localhost2"), ("Subject", "hello")] "from")).data.contains '.' = false ∧
        senderDomainOf (getHeader [("From", "u@localhost2"), ("Subject", "hello")] "from") ≠ "localhost"))) :=
  ⟨(spam_classifier_amended
      { enabled := false, keywords := ["win a prize"], domains := [] }
      { id := "m1", headers := [("From", "u@localhost2"), ("Subject", "win a prize!!!")],
        snippet := "", bodyText := none }).1 rfl,
   (spam_classifier_amended
      { enabled := true, keywords := [], domains := [] }
      { id := "m1", headers := [("From", "u@localhost2"), ("Subject", "hello")],
        snippet := "", bodyText := none }).2 rfl⟩

/-- C10: when the sender header contains no `'@'`, the domain extraction
of `isSpam` yields the entire lowercased header with the first `'>'`
removed (since `lastIndexOf('@')` is `-1` the substring starts at 0),
and the no-TLD heuristic therefore flags the message as spam (with
detection enabled) whenever that string is non-empty, has no `'.'` and
is not `"localhost"`. -/
theorem no_at_domain_extraction (cfg : SpamConfig) (m : FullMsg)
    (hEn : cfg.enabled = true)
    (hAt : (getHeader m.headers "from").data.contains '@' = false) :
    senderDomainOf (getHeader m.headers "from")
      = String.mk (removeFirstGt (lowerStr (getHeader m.headers "from")).data) ∧
    ((senderDomainOf (getHeader m.headers "from") ≠ "" ∧
      (senderDomainOf (getHeader m.headers "from")).data.contains '.' = false ∧
      senderDomainOf (getHeader m.headers "from") ≠ "localhost") →
      isSpam cfg m = true) := by
  have hlow : (lowerStr (getHeader m.headers "from")).data.contains '@' = false :=
    (contains_at_lower (getHeader m.headers "from").data).trans hAt
  constructor
  · unfold senderDomainOf
    rw [afterLastAt_of_not_contains _ hlow]
  · rintro ⟨h1, h2, h3⟩
    unfold isSpam
    simp only [hEn, Bool.not_true, Bool.false_eq_true, if_false]
    have h2' : '.' ∉ (senderDomainOf (getHeader m.headers "from")).data := by
      simpa using h2
    simp [h1, h2', h3]

/-- Witness for C10: the bare sender header `"Weird-Sender"` (no `'@'`)
yields domain `"weird-sender"` and is classified as spam. -/
theorem no_at_domain_extraction_witness :
    (senderDomainOf (getHeader [("From", "Weird-Sender"), ("Subject", "hi")] "from")
      = String.mk (removeFirstGt
          (lowerStr (getHeader [("From", "Weird-Sender"), ("Subject", "hi")] "from")).data)) ∧
    isSpam
        { enabled := true, keywords := [], domains := [] }
        { id := "m1", headers := [("From", "Weird-Sender"), ("Subject", "hi")],
          snippet := "", bodyText := none } = true :=
  ⟨(no_at_domain_extraction
      { enabled := true, keywords := [], domains := [] }
      { id := "m1", headers := [("From", "Weird-Sender"), ("Subject", "hi")],
        snippet := "", bodyText := none } rfl (by decide)).1,
   (no_at_domain_extraction
      { enabled := true, keywords := [], domains := [] }
      { id := "m1", headers := [("From", "Weird-Sender"), ("Subject", "hi")],
        snippet := "", bodyText := none } rfl (by decide)).2
     ⟨by decide, by decide, by decide⟩⟩

/-! ## Suggestion-store reachability lemmas -/

/-- Replacing the first `p`-element by one with the same normalized name
leaves the name multiset untouched. -/
theorem namesKey_updFirstWith (p : Suggestion → Bool) (s s' : Suggestion)
    (l : List Suggestion) (hf : l.find? p = some s)
    (hname : lowerStr s'.name = lowerStr s.name) :
    namesKey (updFirstWith p s' l) = namesKey l := by
  induction l with
  | nil => rfl
  | cons a t ih =>
    by_cases ha : p a
    · rw [List.find?_cons_of_pos t ha] at hf
      have has : a = s := by injection hf
      rw [updFirstWith, if_pos ha]
      simp only [namesKey, List.map_cons]
      rw [hname, has]
    · rw [List.find?_cons_of_neg t ha] at hf
      rw [updFirstWith, if_neg ha]
      simp only [namesKey, List.map_cons]
      have := ih hf
      simp only [namesKey] at this
      rw [this]

/-- Approval rewrites a suggestion's status but no name. -/
theorem approve_namesKey (create : String → Option String) (auto : Bool)
    (st : SuggState) (sid : String) :
    namesKey ((approveSuggestion create auto st sid).2).suggestions
      = namesKey st.suggestions := by
  cases hf : st.suggestions.find? (fun s => s.id = sid) with
  | none => simp only [approveSuggestion, hf]
  | some s =>
    cases hc : create s.name with
    | some L =>
      by_cases hA : auto <;>
        simp only [approveSuggestion, hf, hc, hA, if_true, if_false, Bool.false_eq_true] <;>
        exact namesKey_updFirstWith _ s _ _ hf rfl
    | none =>
      simp only [approveSuggestion, hf, hc]
      exact namesKey_updFirstWith _ s _ _ hf rfl

/-- Rejection rewrites a suggestion's status but no name. -/
theorem reject_namesKey (st : SuggState) (sid : String) :
    namesKey ((rejectSuggestion st sid).2).suggestions = namesKey st.suggestions := by
  cases hf : st.suggestions.find? (fun s => s.id = sid) with
  | none => simp only [rejectSuggestion, hf]
  | some s =>
    simp only [rejectSuggestion, hf]
    exact namesKey_updFirstWith _ s _ _ hf rfl

/-- The pattern learner either leaves the store alone or appends one
suggestion whose normalized name is new. -/
theorem analyze_suggestions_cases (cache : List (String × String)) (nid : String)
    (m : FullMsg) (applied : List String) (ps : PatternState) :
    (analyzeForPatterns cache nid m applied ps).suggestions = ps.suggestions ∨
    ∃ sg, (analyzeForPatterns cache nid m applied ps).suggestions
            = ps.suggestions ++ [sg] ∧
          ∀ s ∈ ps.suggestions, lowerStr s.name ≠ lowerStr sg.name := by
  unfold analyzeForPatterns
  cases he : applied.isEmpty with
  | true =>
    rw [if_pos rfl]
    exact Or.inl rfl
  | false =>
    rw [if_neg (by simp)]
    cases hdom : extractDomain (getHeader m.headers "from").data with
    | none =>
      simp only [hdom]
      exact Or.inl trivial
    | some dom =>
      cases hfind : applied.find? (fun id => lookupLabel cache id ≠ some SPAM_LABEL_NAME) with
      | none =>
        simp only [hdom, hfind]
        exact Or.inl trivial
      | some primaryId =>
        simp only [hdom, hfind, if_true]
        by_cases h1 : MIN_EMAILS_FOR_PATTERN
            ≤ ps.counters (String.mk dom ++ ":::" ++ primaryId) + 1
        · rw [if_pos h1]
          cases hA : ps.suggestions.any (fun s => lowerStr s.name
              = lowerStr (labelNameOrUndefined cache primaryId ++ " - " ++ String.mk dom)) with
          | true =>
            rw [if_neg (by simp [hA])]
            exact Or.inl rfl
          | false =>
            cases hB : cache.any (fun p => lowerStr p.2
                = lowerStr (labelNameOrUndefined cache primaryId ++ " - " ++ String.mk dom)) with
            | true =>
              rw [if_neg (by simp [hA, hB])]
              exact Or.inl rfl
            | false =>
              rw [if_pos (by simp [hA, hB])]
              refine Or.inr ⟨_, rfl, ?_⟩
              intro s hs heq
              have := List.any_eq_false.mp hA s hs
              simp at this
              exact this heq
        · rw [if_neg h1]
          exact Or.inl rfl

/-- Every reachable store has pairwise (case-insensitively) distinct
suggestion names. -/
theorem reach_namesKey_nodup {ss : List Suggestion} (h : ReachSugg ss) :
    (namesKey ss).Nodup := by
  induction h with
  | nil => simp [namesKey]
  | learn cache nid m applied counters _ ih =>
    rcases analyze_suggestions_cases cache nid m applied ⟨counters, _⟩ with heq | ⟨sg, heq, hall⟩
    · rw [heq]
      exact ih
    · rw [heq]
      simp only [namesKey, List.map_append, List.map_cons, List.map_nil]
      rw [List.nodup_append]
      refine ⟨ih, List.nodup_singleton _, ?_⟩
      intro a ha hb
      simp only [List.mem_singleton] at hb
      subst hb
      rcases List.mem_map.mp ha with ⟨s, hs, hkey⟩
      exact hall s hs hkey
  | approve create auto rules pr sid _ ih =>
    rw [approve_namesKey]
    exact ih
  | reject rules pr sid _ ih =>
    rw [reject_namesKey]
    exact ih

/-- Filtering by a conjunction never keeps more than filtering by one
conjunct. -/
theorem length_filter_and_le (l : List Suggestion) (p q : Suggestion → Bool) :
    (l.filter (fun s => p s && q s)).length ≤ (l.filter p).length := by
  induction l with
  | nil => simp
  | cons a t ih =>
    cases hp : p a <;> cases hq : q a <;>
      simp [List.filter_cons, hp, hq] <;> omega

/-- In a list with `Nodup` keys at most one element carries any given
key. -/
theorem nodup_key_filter_le_one (f : Suggestion → String) (l : List Suggestion)
    (h : (l.map f).Nodup) (k : String) :
    (l.filter (fun s => f s = k)).length ≤ 1 := by
  induction l with
  | nil => simp
  | cons a t ih =>
    rw [List.map_cons, List.nodup_cons] at h
    by_cases hk : f a = k
    · rw [List.filter_cons_of_pos (by simpa using hk)]
      have hnil : t.filter (fun s => decide (f s = k)) = [] := by
        rw [List.filter_eq_nil_iff]
        intro s hs heq
        exact h.1 (List.mem_map.mpr ⟨s, hs, by simpa using (of_decide_eq_true heq).trans hk.symm⟩)
      rw [hnil]
      simp
    · rw [List.filter_cons_of_neg (by simpa using hk)]
      exact ih h.2

/-- C9: in every suggestion store reachable through the pattern-learner
creation, approve and reject operations, at most one suggestion whose
name equals (case-insensitively) any given suggested name is in status
`pending` or `approved`. -/
theorem suggestion_name_uniqueness (ss : List Suggestion) (h : ReachSugg ss)
    (n : String) :
    (ss.filter (fun s => decide (lowerStr s.name = lowerStr n) && isPA s.status)).length
      ≤ 1 :=
  le_trans
    (length_filter_and_le ss (fun s => decide (lowerStr s.name = lowerStr n))
      (fun s => isPA s.status))
    (nodup_key_filter_le_one (fun s => lowerStr s.name) ss (reach_namesKey_nodup h)
      (lowerStr n))

/-- Witness for C9: the store obtained by one pattern-learner creation
step from the empty store satisfies the bound at the created name. -/
theorem suggestion_name_uniqueness_witness :
    ((analyzeForPatterns [("L1", "Finance")] "77"
        { id := "m3", headers := [("From", "alerts@billing.example.com"), ("Subject", "inv")],
          snippet := "", bodyText := none }
        ["L1"]
        ⟨fun k => if k = "billing.example.com:::L1" then 2 else 0, []⟩).suggestions.filter
      (fun s => decide (lowerStr s.name = lowerStr "FINANCE - Billing.Example.Com")
        && isPA s.status)).length ≤ 1 :=
  suggestion_name_uniqueness _
    (ReachSugg.learn [("L1", "Finance")] "77"
      { id := "m3", headers := [("From", "alerts@billing.example.com"), ("Subject", "inv")],
        snippet := "", bodyText := none }
      ["L1"] (fun k => if k = "billing.example.com:::L1" then 2 else 0) ReachSugg.nil)
    "FINANCE - Billing.Example.Com"

end InboxDetox
